import Mathlib

/-! NYC subway station locator: viewport resolver and station clustering

A shallow embedding of `stations.go` and `clusterer.go`.

* `float64` values are modelled by exact rationals (`Float64 := ℚ`): rounding,
  infinities and NaN are outside the model.
* Go `int` is modelled by `Int`, with `wrapInt64` where an addition could wrap.
* A Go call ends in one of three ways, `Outcome`: a value, a returned `error`,
  or a run-time panic (index out of range).
* The Go standard library and the three imported packages are not part of the
  sources.  `strconv.ParseFloat`, `math.Cos`, `math.Pi` and the two functions of
  the clustering package are parameters; `strings.Split`, `math.Min`,
  `math.Max`, `fmt.Sprintf` and the accessors of `go.geojson` are written out;
  the rectangle constructor of `rtreego` and a clustering engine are modelled
  from the specification, and say so.  The clustering engine of the
  specification serves to run `clusterStations` on concrete stations; the
  statements about `clusterStations` hold for every clustering package.
* A `*geojson.Feature` is shared between the index and the result of a query:
  `clusterStations` returns the stations as they are after the call next to its
  outcome.
-/

namespace NycSubway

/-! ## Values, errors, outcomes -/

/-- Go `float64`, modelled by exact rational arithmetic. -/
abbrev Float64 := ℚ

/-- The `error` values that reach the callers of this package. -/
inductive Error where
  /-- `*strconv.NumError` from `strconv.ParseFloat`; `num` is the rejected text. -/
  | numError (num : String)
  /-- `rtreego.DimError`: corner and lengths of different dimension. -/
  | dimError (expected actual : Nat)
  /-- `rtreego.DistError`: an improper (non-positive) length. -/
  | distError (d : Float64)
  /-- `go.geojson`: "type assertion of `key` to string failed". -/
  | typeAssertion (key : String)
  deriving DecidableEq, Repr

/-- How a Go call ends: a value, a returned error, or a run-time panic. -/
inductive Outcome (α : Type) where
  | ok (v : α)
  | err (e : Error)
  | panic
  deriving DecidableEq, Repr

namespace Outcome

/-- Sequencing: the first error or panic ends the call. -/
def bind {α β : Type} (x : Outcome α) (f : α → Outcome β) : Outcome β :=
  match x with
  | ok v => f v
  | err e => err e
  | panic => panic

instance : Monad Outcome where
  pure := Outcome.ok
  bind := Outcome.bind

/-- The call returned a value. -/
def isOk {α : Type} : Outcome α → Bool
  | ok _ => true
  | _ => false

end Outcome

/-- Slice indexing `xs[i]`: panics when `i` is out of range. -/
def index {α : Type} (xs : List α) (i : Nat) : Outcome α :=
  match xs[i]? with
  | some x => .ok x
  | none => .panic

/-! ## `strings.Split` with a one-character separator -/

/-- Split a character sequence at every occurrence of `sep`; a sequence without
`sep` gives the one-element result, as `strings.Split` does. -/
def splitChars (sep : Char) : List Char → List (List Char)
  | [] => [[]]
  | c :: cs =>
    if c = sep then [] :: splitChars sep cs
    else
      match splitChars sep cs with
      | [] => [[c]]
      | h :: t => (c :: h) :: t

/-- Go `strings.Split(s, sep)` for a separator of one character. -/
def Split (s : String) (sep : Char) : List String :=
  (splitChars sep s.data).map String.mk

/-! ## Rectangles of the spatial index (`rtreego`) -/

/-- Modelled from the spec: the `Rect` type of package `rtreego`, which is not
part of the sources.  "Rectangle: min corner (lng, lat) + extents (width,
height) in degrees." -/
structure Rect where
  origin : List Float64
  extents : List Float64
  deriving DecidableEq, Repr

/-- Modelled from the spec: the constructor `rtree.NewRect(p, lengths)` of
package `rtreego`, which is not part of the sources.  The index's rectangle
representation does not accept a degenerate or inverted rectangle (§3: a point
has to be "expanded by a tiny fixed epsilon ... so the index's rectangle
representation accepts it"; a zero-area or inverted rectangle is malformed), so
the constructor reports the first length that is not positive; corner and
lengths must have the same dimension. -/
def rtreeNewRect (p : List Float64) (lengths : List Float64) : Except Error Rect :=
  if p.length ≠ lengths.length then
    .error (.dimError p.length lengths.length)
  else
    match lengths.find? (fun l => decide (l ≤ 0)) with
    | some l => .error (.distError l)
    | none => .ok { origin := p, extents := lengths }

/-! ## `newRect` (stations.go) -/

/-- The function `newRect` of stations.go: constructs the query rectangle for a
viewport `"swLat,swLng|neLat,neLng"`.  `ParseFloat s` is
`strconv.ParseFloat(s, 64)`: `none` when it returns an error. -/
def newRect (ParseFloat : String → Option Float64) (vp : String) : Outcome Rect := do
  let parse (s : String) : Outcome Float64 :=
    match ParseFloat s with
    | some x => .ok x
    | none => .err (.numError s)
  let ss := Split vp '|'
  let sw := Split (← index ss 0) ','
  let swLat ← parse (← index sw 0)
  let swLng ← parse (← index sw 1)
  let ne := Split (← index ss 1) ','
  let neLat ← parse (← index ne 0)
  let neLng ← parse (← index ne 1)
  let minLat := min swLat neLat
  let minLng := min swLng neLng
  let distLat := max swLat neLat - minLat
  let distLng := max swLng neLng - minLng
  -- Grow the rect
  match rtreeNewRect [minLng - distLng / 10, minLat - distLat / 10]
      [distLng * 1.2, distLat * 1.2] with
  | .error e => .err e
  | .ok r => .ok r

/-! ## A decimal reader, used to run `newRect` on concrete viewports -/

/-- Value of a run of decimal digits, `none` if a character is not a digit. -/
def digitsValue : List Char → Option Nat
  | [] => some 0
  | cs =>
    cs.foldl
      (fun acc c =>
        match acc with
        | none => none
        | some n => if c.isDigit then some (10 * n + (c.toNat - 48)) else none)
      (some 0)

/-- Unsigned decimal `ddd` or `ddd.ddd` with at least one digit. -/
def unsignedDecimal (cs : List Char) : Option Float64 :=
  match splitChars '.' cs with
  | [ip] =>
    if ip = [] then none else (digitsValue ip).map (fun n => (n : ℚ))
  | [ip, fp] =>
    if ip = [] ∧ fp = [] then none
    else
      match digitsValue ip, digitsValue fp with
      | some i, some f => some ((i : ℚ) + (f : ℚ) / (10 : ℚ) ^ fp.length)
      | _, _ => none
  | _ => none

/-- The plain signed decimals among the texts `strconv.ParseFloat` accepts
(`"40.70"`, `"-74.01"`, `"+3"`), read exactly; every other text is refused.
An instance of the `ParseFloat` parameter for concrete runs. -/
def parseDecimal (s : String) : Option Float64 :=
  match s.data with
  | '-' :: cs => (unsignedDecimal cs).map (fun x => -x)
  | '+' :: cs => unsignedDecimal cs
  | cs => unsignedDecimal cs

/-- The viewport text `"a,b|c,d"` built from four components. -/
def viewport (a b c d : String) : String :=
  a ++ "," ++ b ++ "|" ++ c ++ "," ++ d

/-- A component that contains neither separator (no text that
`strconv.ParseFloat` accepts contains one). -/
def isField (s : String) : Prop :=
  ',' ∉ s.data ∧ '|' ∉ s.data

instance (s : String) : Decidable (isField s) := by
  unfold isField; infer_instance

/-- Lower edge of a rectangle on axis `i` (0 = longitude, 1 = latitude). -/
def Rect.lo (r : Rect) (i : Nat) : Float64 :=
  r.origin.getD i 0

/-- Upper edge of a rectangle on axis `i`: lower edge plus extent. -/
def Rect.hi (r : Rect) (i : Nat) : Float64 :=
  r.origin.getD i 0 + r.extents.getD i 0

/-! ## Geo math (clusterer.go) -/

/-- The two items of Go package `math` that exact rationals cannot express:
`math.Cos` (radians) and `math.Pi`. -/
structure MathPkg where
  Cos : Float64 → Float64
  Pi : Float64

/-- Go `int` is 64 bits wide: the value an `int` expression wraps to. -/
def wrapInt64 (n : Int) : Int :=
  (n + 2 ^ 63) % 2 ^ 64 - 2 ^ 63

/-- The values of a Go `int`. -/
def isInt64 (n : Int) : Prop :=
  -(2 ^ 63) ≤ n ∧ n < 2 ^ 63

instance (n : Int) : Decidable (isInt64 n) := by
  unfold isInt64; infer_instance

/-- The zoom level to stop clustering at. -/
def minZoomLevelToShowUngroupedStations : Int := 14

/-- Latitude of NYC. -/
def nycLatitude : Float64 := 40.7128

/-- Station marker image width. -/
def stationMarkerWidth : Float64 := 28

/-- Rough estimate of earth's radius in km. -/
def EarthRadius : Float64 := 6378.137

/-- The function `cos` of clusterer.go: cosine of an angle given in degrees. -/
def cos (m : MathPkg) (degree : Float64) : Float64 :=
  m.Cos (degree * m.Pi / 180)

/-- The function `groundResolutionByLatAndZoom` of clusterer.go: km on the
ground per pixel.  `math.Pow(2, float64(8+zoom))` is the integer power of two. -/
def groundResolutionByLatAndZoom (m : MathPkg) (lat : Float64) (zoom : Int) : Float64 :=
  let numPixels : Float64 := (2 : ℚ) ^ wrapInt64 (8 + zoom)
  cos m lat * 2 * m.Pi * EarthRadius / numPixels

/-- The function `getClusteringRadiusAndMinClusterSize` of clusterer.go. -/
def getClusteringRadiusAndMinClusterSize (m : MathPkg) (zoom : Int) : Float64 × Int :=
  if zoom ≥ minZoomLevelToShowUngroupedStations then
    (0.01, 2)
  else
    let groundResolution := groundResolutionByLatAndZoom m nycLatitude zoom
    let clusteringRadius := groundResolution * stationMarkerWidth
    (clusteringRadius, 3)

/-- A rational stand-in for `math.Cos` and `math.Pi` (a Taylor polynomial and
355/113), used to run the functions on concrete inputs. -/
def approxMath : MathPkg where
  Cos := fun x => 1 - x ^ 2 / 2 + x ^ 4 / 24
  Pi := 355 / 113

/-! ## Features (`go.geojson`) -/

/-- A property value (`interface{}`) as decoded from JSON. -/
inductive Value where
  | null
  | bool (b : Bool)
  | number (x : Float64)
  | string (s : String)
  deriving DecidableEq, Repr

/-- The fields of `geojson.Feature` that this package reads or writes: the
point geometry `(lng, lat)` and the property map.  A station's geometry has both
coordinates: `loadStations` puts every station into the R-tree through `Bounds`,
which reads both. -/
structure Feature where
  Point : Float64 × Float64
  Properties : String → Option Value

/-- The method `(*Feature).PropertyString` of `go.geojson`: the property as a
string, or an error when it is absent or not a string. -/
def Feature.PropertyString (f : Feature) (key : String) : Except Error String :=
  match f.Properties key with
  | some (.string s) => .ok s
  | _ => .error (.typeAssertion key)

/-- The method `(*Feature).SetProperty` of `go.geojson`: the feature after the
map entry `key` is set to `value`. -/
def Feature.SetProperty (f : Feature) (key : String) (value : Value) : Feature :=
  { f with Properties := fun k => if k = key then some value else f.Properties k }

/-- The function `geojson.NewPointFeature`: a new feature with the given point and an
empty property map. -/
def NewPointFeature (coordinate : Float64 × Float64) : Feature :=
  { Point := coordinate, Properties := fun _ => none }

/-- The type `Station` of stations.go: a wrapper of the `*geojson.Feature` it points to. -/
structure Station where
  feature : Feature

/-- The type `cluster.Point`: `[2]float64`. -/
abbrev Point := Float64 × Float64

/-- The type `cluster.PointList`. -/
abbrev PointList := List Point

/-- The method `(*Station).Point` of clusterer.go. -/
def Station.Point (s : Station) : Point :=
  (s.feature.Point.1, s.feature.Point.2)

/-- The method `(*Station).Bounds` of stations.go: the point as a square of half-width
`1e-6` (`rtree.Point.ToRect`). -/
def Station.Bounds (s : Station) : Rect :=
  { origin := [s.feature.Point.1 - 1e-6, s.feature.Point.2 - 1e-6],
    extents := [2 * 1e-6, 2 * 1e-6] }

/-! ## The clustering package (`go-point-clustering`) -/

/-- The type `cluster.Cluster`: a label and the indices of the member points. -/
structure Cluster where
  C : Int
  Points : List Nat
  deriving DecidableEq, Repr

/-- The two functions of package `go-point-clustering` that `clusterStations`
calls; the package is not part of the sources.  `DBScan points eps minPoints`
returns the clusters and the noise indices; `CentroidAndBounds` returns the
centre of a cluster (its two bounds are discarded by the caller). -/
structure ClusterPkg where
  DBScan : PointList → Float64 → Int → List Cluster × List Nat
  CentroidAndBounds : Cluster → PointList → Point

/-! ## `clusterStations` (clusterer.go) -/

/-- An element of `FeatureCollection.Features` while the collection is built:
the feature a station of the input points to, or a feature made by this call. -/
inductive FeatureRef where
  | station (id : Nat)
  | fresh (f : Feature)

/-- The three `SetProperty` calls on a noise station's feature. -/
def stationRecord (f : Feature) (name notes : String) : Feature :=
  ((f.SetProperty "title" (.string (name ++ " Station"))).SetProperty
    "description" (.string notes)).SetProperty "type" (.string "station")

/-- The feature made for one cluster, at the centre the package computes. -/
def clusterRecord (k : ClusterPkg) (pl : PointList) (clstr : Cluster) : Feature :=
  let ctr := k.CentroidAndBounds clstr pl
  let f := NewPointFeature (ctr.1, ctr.2)
  let n := clstr.Points.length
  let f := f.SetProperty "title"
    (.string ("Station Cluster #" ++ toString (wrapInt64 (clstr.C + 1))))
  let f := f.SetProperty "description"
    (.string ("Contains " ++ toString n ++ " stations"))
  f.SetProperty "type" (.string "cluster")

/-- The loop over `noise`: `st` is the current content of the stations'
features, `fc` the features added so far.  Stops at the first station without
a string `name` or `notes`; indexing `spatials[id]` out of range panics. -/
def noiseLoop : List Nat → List Station → List FeatureRef →
    List Station × Outcome (List FeatureRef)
  | [], st, fc => (st, .ok fc)
  | id :: rest, st, fc =>
    match st[id]? with
    | none => (st, .panic)
    | some s =>
      let f := s.feature
      match f.PropertyString "name" with
      | .error e => (st, .err e)
      | .ok name =>
        match f.PropertyString "notes" with
        | .error e => (st, .err e)
        | .ok notes =>
          noiseLoop rest (st.set id { feature := stationRecord f name notes })
            (fc ++ [.station id])

/-- What a collected feature is once the call has returned. -/
def resolve (st : List Station) : FeatureRef → Option Feature
  | .station id => (st[id]?).map (fun s => s.feature)
  | .fresh f => some f

/-- The function `clusterStations` of clusterer.go.  Returns the stations'
features as they are after the call, and the call's outcome: the features of
the collection in order, or the error.  The elements of `spatials` are distinct
stations, as `SearchIntersect` returns them. -/
def clusterStations (m : MathPkg) (k : ClusterPkg) (spatials : List Station) (zoom : Int) :
    List Station × Outcome (List Feature) :=
  let pl : PointList := spatials.map Station.Point
  let (clusteringRadius, minClusterSize) := getClusteringRadiusAndMinClusterSize m zoom
  let (clusters, noise) := k.DBScan pl clusteringRadius minClusterSize
  match noiseLoop noise spatials [] with
  | (st, .err e) => (st, .err e)
  | (st, .panic) => (st, .panic)
  | (st, .ok fc) =>
    let fc := fc ++ clusters.map (fun clstr => .fresh (clusterRecord k pl clstr))
    (st, .ok (fc.filterMap (resolve st)))

/-! ## The clustering engine as the specification describes it -/

/-- Squared Euclidean distance of two points. -/
def sqDist (a b : Point) : Float64 :=
  (a.1 - b.1) ^ 2 + (a.2 - b.2) ^ 2

/-- Modelled from the spec: reachability of the clustering engine (package
`go-point-clustering`, not part of the sources).  "Two points are reachable if
their Euclidean distance ≤ radius"; the distance is compared through its square. -/
def reachable (points : PointList) (radius : Float64) (i j : Nat) : Bool :=
  match points[i]?, points[j]? with
  | some a, some b => decide (0 ≤ radius ∧ sqDist a b ≤ radius ^ 2)
  | _, _ => false

/-- Modelled from the spec: one "set of points connected through chains of
reachable points".  `todo` are the members found and not yet expanded, `rest`
the points not yet in any group; returns the group and what is left of `rest`.
Each step expands one member, so `todo.length + rest.length` steps are enough. -/
def flood (adj : Nat → Nat → Bool) : Nat → List Nat → List Nat → List Nat × List Nat
  | 0, todo, rest => (todo, rest)
  | _ + 1, [], rest => ([], rest)
  | fuel + 1, x :: todo, rest =>
    let near := rest.filter (fun j => adj x j)
    let far := rest.filter (fun j => !adj x j)
    let (comp, left) := flood adj fuel (todo ++ near) far
    (x :: comp, left)

/-- Modelled from the spec: all groups of chained points, each started from
the first point that is in no group yet. -/
def components (adj : Nat → Nat → Bool) : Nat → List Nat → List (List Nat)
  | _, [] => []
  | 0, i :: rest => [i :: rest]
  | fuel + 1, i :: rest =>
    let (comp, left) := flood adj (rest.length + 1) [i] rest
    comp :: components adj fuel left

/-- Modelled from the spec: the clustering pass `cluster(points, radius,
minSize)` of §4.4.  "A cluster is a maximal set of points connected through
chains of reachable points, provided the resulting group has at least
`minSize` members; groups smaller than `minSize` are not clusters — their
members are reported individually as noise."  Noise is reported in index order;
`label position members` is the label given to a cluster.  This is the engine
as the specification words it, used to run `clusterStations` on concrete
stations; it is not `cluster.DBScan` of package `go-point-clustering`, which
the code calls and which is not part of the sources: that one takes the radius
in km on the sphere, and its noise list and clusters can share a point (see
`borderOutput`). -/
def specDBScan (label : Nat → List Nat → Int) (points : PointList) (radius : Float64)
    (minSize : Int) : List Cluster × List Nat :=
  let n := points.length
  let groups := components (reachable points radius) n (List.range n)
  let big := groups.filter (fun g => decide (minSize ≤ (g.length : Int)))
  let small := groups.filter (fun g => !decide (minSize ≤ (g.length : Int)))
  (big.enum.map (fun p => { C := label p.1 p.2, Points := p.2 }),
    (List.range n).filter (fun i => small.any (fun g => g.contains i)))

/-- Modelled from the spec: "Cluster centroid: arithmetic mean of member
coordinates (mean longitude, mean latitude)". -/
def specCentroid (c : Cluster) (points : PointList) : Point :=
  let pts := c.Points.filterMap (fun i => points[i]?)
  ((pts.map Prod.fst).sum / pts.length, (pts.map Prod.snd).sum / pts.length)

/-- The clustering package as the specification describes it, for a given
labelling of the clusters. -/
def specEngine (label : Nat → List Nat → Int) : ClusterPkg where
  DBScan := specDBScan label
  CentroidAndBounds := specCentroid

/-- Labels that number the clusters 0, 1, 2, ... in output order, as
`cluster.DBScan` numbers them. -/
def labelByPosition (position : Nat) (_members : List Nat) : Int :=
  position

/-- A station at `(lng, lat)` with the given `name` and `notes`. -/
def mkStation (lng lat : Float64) (name notes : String) : Station where
  feature :=
    { Point := (lng, lat)
      Properties := fun k =>
        if k = "name" then some (.string name)
        else if k = "notes" then some (.string notes)
        else none }

/-! ## Notions used to state the properties of `clusterStations` -/

/-- The `name` and `notes` of a feature, when both are string properties. -/
def metadata (f : Feature) : Option (String × String) :=
  match f.PropertyString "name", f.PropertyString "notes" with
  | .ok name, .ok notes => some (name, notes)
  | _, _ => none

/-- A station after the noise loop has passed over it: its feature carries the
three display properties.  A station without `name` or `notes` is left as it is. -/
def decorated (s : Station) : Station :=
  match metadata s.feature with
  | some (name, notes) => { feature := stationRecord s.feature name notes }
  | none => s

/-- What the clustering package returns inside `clusterStations`: the clusters
and the noise indices for the stations' points and the zoom's parameters. -/
def engineOutput (m : MathPkg) (k : ClusterPkg) (spatials : List Station) (zoom : Int) :
    List Cluster × List Nat :=
  k.DBScan (spatials.map Station.Point) (getClusteringRadiusAndMinClusterSize m zoom).1
    (getClusteringRadiusAndMinClusterSize m zoom).2

/-- The property keys that `clusterStations` writes. -/
def displayKeys : List String :=
  ["title", "description", "type"]

/-- The stations while the noise loop runs: each is the station the call
started with, or that station with its display properties set. -/
def LoopInv (orig st : List Station) : Prop :=
  st.length = orig.length ∧
    ∀ (j : Nat) (s : Station), st[j]? = some s →
      ∃ o, orig[j]? = some o ∧ (s = o ∨ s = decorated o)

/-- The feature has a string-valued property `key`. -/
def hasStringProperty (f : Feature) (key : String) : Prop :=
  ∃ s, f.Properties key = some (.string s)

/-- A noise index and the station record emitted for it: the station's
coordinate, title `"<name> Station"`, its notes as description, type
`"station"`. -/
def isStationRecord (spatials : List Station) (id : Nat) (f : Feature) : Prop :=
  ∃ s name notes, spatials[id]? = some s ∧
    s.feature.Properties "name" = some (.string name) ∧
    s.feature.Properties "notes" = some (.string notes) ∧
    f.Point = s.feature.Point ∧
    f.Properties "title" = some (.string (name ++ " Station")) ∧
    f.Properties "description" = some (.string notes) ∧
    f.Properties "type" = some (.string "station")

/-- The values of one property over the features of a returned collection
(empty when the call did not return a collection). -/
def propertyColumn (key : String) : Outcome (List Feature) → List (Option Value)
  | .ok fc => fc.map (fun f => f.Properties key)
  | _ => []

/-- Four stations: one on its own and three within 0.002 degrees of each other. -/
def demoStations : List Station :=
  [mkStation 5 5 "A" "a", mkStation 0 0 "B" "b", mkStation 0 0.001 "C" "c",
    mkStation 0 0.002 "D" "d"]

/-- Two stations far apart, the second without `notes`. -/
def demoStationsNoNotes : List Station :=
  [mkStation 0 0 "A" "a",
    { feature :=
        { Point := (10, 10)
          Properties := fun k => if k = "name" then some (.string "B") else none } }]

/-- Two stations at the same place and a third far away. -/
def colocatedStations : List Station :=
  [mkStation 0 0 "A" "a", mkStation 0 0 "B" "b", mkStation 9 9 "Z" "z"]

/-- Three stations in a row on a meridian, 0.003 degrees (about 0.33 km) from
one to the next. -/
def borderStations : List Station :=
  [mkStation 0 0 "A" "a", mkStation 0 0.003 "B" "b", mkStation 0 0.006 "C" "c"]

/-- What `cluster.DBScan` returns for the points of `borderStations` with the
parameters of zoom 13 (radius about 0.41 km, minimum size 3).  Station 0 is
visited first; it has only station 1 within the radius, too few for a cluster,
and goes on the noise list.  Station 1 has both others within the radius: it
starts cluster 0, which takes in its neighbours, stations 2 and 0.  Nothing
takes station 0 off the noise list again. -/
def borderOutput : List Cluster × List Nat :=
  ([{ C := 0, Points := [1, 2, 0] }], [0])

/-- The clustering package on the call for `borderStations` at zoom 13. -/
def borderPkg : ClusterPkg where
  DBScan := fun _ _ _ => borderOutput
  CentroidAndBounds := specCentroid

/-! ## Lemmas on splitting a viewport -/

theorem splitChars_of_not_mem (sep : Char) (a : List Char) (h : sep ∉ a) :
    splitChars sep a = [a] := by
  induction a with
  | nil => rfl
  | cons c cs ih =>
    have hc : c ≠ sep := fun e => h (by simp [e])
    have hcs : sep ∉ cs := fun e => h (by simp [e])
    simp [splitChars, hc, ih hcs]

theorem splitChars_append (sep : Char) (a b : List Char) (h : sep ∉ a) :
    splitChars sep (a ++ sep :: b) = a :: splitChars sep b := by
  induction a with
  | nil => simp [splitChars]
  | cons c cs ih =>
    have hc : c ≠ sep := fun e => h (by simp [e])
    have hcs : sep ∉ cs := fun e => h (by simp [e])
    simp [splitChars, hc, ih hcs]

theorem Split_pair (a b : String) (ha : isField a) (hb : isField b) :
    Split (a ++ "," ++ b) ',' = [a, b] := by
  have e : (a ++ "," ++ b).data = a.data ++ ',' :: b.data := by
    simp [String.data_append]
  simp [Split, e, splitChars_append _ _ _ ha.1, splitChars_of_not_mem _ _ hb.1]

theorem Split_pair_bar (a b : String) (ha : isField a) (hb : isField b) :
    Split (a ++ "," ++ b) '|' = [a ++ "," ++ b] := by
  have e : (a ++ "," ++ b).data = a.data ++ ',' :: b.data := by
    simp [String.data_append]
  have h : '|' ∉ a.data ++ ',' :: b.data := by
    simp [ha.2, hb.2]
  simp [Split, e, splitChars_of_not_mem _ _ h, String.ext_iff, String.data_append]

theorem Split_viewport (a b c d : String) (ha : isField a) (hb : isField b)
    (hc : isField c) (hd : isField d) :
    Split (viewport a b c d) '|' = [a ++ "," ++ b, c ++ "," ++ d] := by
  have h : '|' ∉ a.data ++ ',' :: b.data := by
    simp [ha.2, hb.2]
  have e : (viewport a b c d).data =
      (a.data ++ ',' :: b.data) ++ '|' :: (c ++ "," ++ d).data := by
    simp [viewport, String.data_append]
  have e2 : Split (viewport a b c d) '|' =
      String.mk (a.data ++ ',' :: b.data) :: Split (c ++ "," ++ d) '|' := by
    simp only [Split, e, splitChars_append _ _ _ h, List.map_cons]
  rw [e2, Split_pair_bar c d hc hd]
  simp [String.ext_iff, String.data_append]

/-- On a viewport `"a,b|c,d"` whose four components parse, `newRect` is the
rectangle constructor applied to the grown bounding box of the two corners. -/
theorem newRect_viewport (ParseFloat : String → Option Float64) (a b c d : String)
    (swLat swLng neLat neLng : Float64)
    (ha : isField a) (hb : isField b) (hc : isField c) (hd : isField d)
    (pa : ParseFloat a = some swLat) (pb : ParseFloat b = some swLng)
    (pc : ParseFloat c = some neLat) (pd : ParseFloat d = some neLng) :
    newRect ParseFloat (viewport a b c d) =
      match rtreeNewRect
          [min swLng neLng - (max swLng neLng - min swLng neLng) / 10,
            min swLat neLat - (max swLat neLat - min swLat neLat) / 10]
          [(max swLng neLng - min swLng neLng) * 1.2,
            (max swLat neLat - min swLat neLat) * 1.2] with
      | .error e => .err e
      | .ok r => .ok r := by
  simp only [newRect, Split_viewport a b c d ha hb hc hd,
    Split_pair a b ha hb, Split_pair c d hc hd, index, bind, Outcome.bind,
    List.getElem?_cons_zero, List.getElem?_cons_succ, pa, pb, pc, pd]

/-- The rectangle constructor on two lengths: it succeeds exactly when both
are positive, and otherwise reports the first that is not. -/
theorem rtreeNewRect_pair (x y l₀ l₁ : Float64) :
    rtreeNewRect [x, y] [l₀, l₁] =
      if l₀ ≤ 0 then .error (.distError l₀)
      else if l₁ ≤ 0 then .error (.distError l₁)
      else .ok { origin := [x, y], extents := [l₀, l₁] } := by
  by_cases h0 : l₀ ≤ 0
  · simp [rtreeNewRect, List.find?, h0]
  · by_cases h1 : l₁ ≤ 0
    · simp [rtreeNewRect, List.find?, h0, h1]
    · simp [rtreeNewRect, List.find?, h0, h1]

/-! ## The viewport resolver -/

/-- C2: for a viewport `"a,b|c,d"` whose four components parse and for which
`newRect` returns a rectangle, on each axis the origin is the raw minimum minus
a tenth of the raw span and the extent is 1.2 times the raw span; so the
rectangle reaches exactly span/10 beyond the raw viewport on all four sides and
contains it. -/
theorem newRect_grows_viewport (ParseFloat : String → Option Float64) (a b c d : String)
    (swLat swLng neLat neLng : Float64) (r : Rect)
    (ha : isField a) (hb : isField b) (hc : isField c) (hd : isField d)
    (pa : ParseFloat a = some swLat) (pb : ParseFloat b = some swLng)
    (pc : ParseFloat c = some neLat) (pd : ParseFloat d = some neLng)
    (hr : newRect ParseFloat (viewport a b c d) = .ok r) :
    r.origin = [min swLng neLng - (max swLng neLng - min swLng neLng) / 10,
      min swLat neLat - (max swLat neLat - min swLat neLat) / 10] ∧
    r.extents = [1.2 * (max swLng neLng - min swLng neLng),
      1.2 * (max swLat neLat - min swLat neLat)] ∧
    r.lo 0 = min swLng neLng - (max swLng neLng - min swLng neLng) / 10 ∧
    r.hi 0 = max swLng neLng + (max swLng neLng - min swLng neLng) / 10 ∧
    r.lo 1 = min swLat neLat - (max swLat neLat - min swLat neLat) / 10 ∧
    r.hi 1 = max swLat neLat + (max swLat neLat - min swLat neLat) / 10 ∧
    r.lo 0 ≤ min swLng neLng ∧ max swLng neLng ≤ r.hi 0 ∧
    r.lo 1 ≤ min swLat neLat ∧ max swLat neLat ≤ r.hi 1 := by
  rw [newRect_viewport ParseFloat a b c d swLat swLng neLat neLng ha hb hc hd pa pb pc pd,
    rtreeNewRect_pair] at hr
  have hx : min swLng neLng ≤ max swLng neLng := min_le_max
  have hy : min swLat neLat ≤ max swLat neLat := min_le_max
  split_ifs at hr with h0 h1
  simp only [Outcome.ok.injEq] at hr
  subst hr
  simp only [Rect.lo, Rect.hi, List.getD_cons_zero, List.getD_cons_succ]
  refine ⟨trivial, ?_, trivial, ?_, trivial, ?_, ?_, ?_, ?_, ?_⟩
  · congr 1
    · ring
    · congr 1; ring
  · ring
  · ring
  · linarith
  · linarith
  · linarith
  · linarith

/-- C2, at the viewport `"40.70,-74.01|40.75,-73.95"`: origin (-74.016,
40.695), extents (0.072, 0.06). -/
theorem newRect_grows_viewport_witness :
    viewport "40.70" "-74.01" "40.75" "-73.95" = "40.70,-74.01|40.75,-73.95" ∧
    newRect parseDecimal "40.70,-74.01|40.75,-73.95" =
      .ok { origin := [-74.016, 40.695], extents := [0.072, 0.06] } ∧
    ({ origin := [-74.016, 40.695], extents := [0.072, 0.06] } : Rect).hi 0 =
      max (-74.01) (-73.95) + (max (-74.01) (-73.95) - min (-74.01) (-73.95)) / 10 ∧
    ({ origin := [-74.016, 40.695], extents := [0.072, 0.06] } : Rect).hi 1 =
      max 40.70 40.75 + (max 40.70 40.75 - min 40.70 40.75) / 10 :=
  have hr : newRect parseDecimal (viewport "40.70" "-74.01" "40.75" "-73.95") =
      .ok { origin := [-74.016, 40.695], extents := [0.072, 0.06] } := by decide!
  have h := newRect_grows_viewport parseDecimal "40.70" "-74.01" "40.75" "-73.95"
    40.70 (-74.01) 40.75 (-73.95) _ (by decide) (by decide) (by decide) (by decide)
    (by decide!) (by decide!) (by decide!) (by decide!) hr
  ⟨by decide, hr, h.2.2.2.1, h.2.2.2.2.2.1⟩

/-- C9: `newRect` gives the same outcome when the two corners are swapped, and
when only their latitudes or only their longitudes are exchanged. -/
theorem newRect_corner_swap (ParseFloat : String → Option Float64) (a b c d : String)
    (swLat swLng neLat neLng : Float64)
    (ha : isField a) (hb : isField b) (hc : isField c) (hd : isField d)
    (pa : ParseFloat a = some swLat) (pb : ParseFloat b = some swLng)
    (pc : ParseFloat c = some neLat) (pd : ParseFloat d = some neLng) :
    newRect ParseFloat (viewport c d a b) = newRect ParseFloat (viewport a b c d) ∧
    newRect ParseFloat (viewport c b a d) = newRect ParseFloat (viewport a b c d) ∧
    newRect ParseFloat (viewport a d c b) = newRect ParseFloat (viewport a b c d) := by
  rw [newRect_viewport ParseFloat a b c d swLat swLng neLat neLng ha hb hc hd pa pb pc pd,
    newRect_viewport ParseFloat c d a b neLat neLng swLat swLng hc hd ha hb pc pd pa pb,
    newRect_viewport ParseFloat c b a d neLat swLng swLat neLng hc hb ha hd pc pb pa pd,
    newRect_viewport ParseFloat a d c b swLat neLng neLat swLng ha hd hc hb pa pd pc pb]
  simp only [min_comm neLng swLng, max_comm neLng swLng, min_comm neLat swLat,
    max_comm neLat swLat, and_self]

/-- C9, at the viewports `"40.7,-74.0|40.8,-73.9"` and `"40.8,-73.9|40.7,-74.0"`. -/
theorem newRect_corner_swap_witness :
    viewport "40.7" "-74.0" "40.8" "-73.9" = "40.7,-74.0|40.8,-73.9" ∧
    viewport "40.8" "-73.9" "40.7" "-74.0" = "40.8,-73.9|40.7,-74.0" ∧
    newRect parseDecimal (viewport "40.8" "-73.9" "40.7" "-74.0") =
      newRect parseDecimal (viewport "40.7" "-74.0" "40.8" "-73.9") ∧
    newRect parseDecimal (viewport "40.7" "-74.0" "40.8" "-73.9") =
      .ok { origin := [-74.01, 40.69], extents := [0.12, 0.12] } :=
  ⟨by decide, by decide,
    (newRect_corner_swap parseDecimal "40.7" "-74.0" "40.8" "-73.9" 40.7 (-74.0) 40.8 (-73.9)
      (by decide) (by decide) (by decide) (by decide)
      (by decide!) (by decide!) (by decide!) (by decide!)).1,
    by decide!⟩

/-- C10 (as the code does it): for a viewport `"a,b|c,d"` whose four
components parse, `newRect` yields a rectangle, with positive extents on both
axes, exactly when the two corners differ in latitude and in longitude; when
they share a latitude or a longitude it returns the error of the rectangle
constructor, which refuses the zero extent. -/
theorem newRect_needs_positive_span (ParseFloat : String → Option Float64)
    (a b c d : String) (swLat swLng neLat neLng : Float64)
    (ha : isField a) (hb : isField b) (hc : isField c) (hd : isField d)
    (pa : ParseFloat a = some swLat) (pb : ParseFloat b = some swLng)
    (pc : ParseFloat c = some neLat) (pd : ParseFloat d = some neLng) :
    ((swLat ≠ neLat ∧ swLng ≠ neLng) →
      ∃ r, newRect ParseFloat (viewport a b c d) = .ok r ∧
        r.extents = [(max swLng neLng - min swLng neLng) * 1.2,
          (max swLat neLat - min swLat neLat) * 1.2] ∧
        0 < r.extents.getD 0 0 ∧ 0 < r.extents.getD 1 0) ∧
    ((swLat = neLat ∨ swLng = neLng) →
      newRect ParseFloat (viewport a b c d) = .err (.distError 0)) := by
  rw [newRect_viewport ParseFloat a b c d swLat swLng neLat neLng ha hb hc hd pa pb pc pd,
    rtreeNewRect_pair]
  have ex : max swLng neLng - min swLng neLng = |neLng - swLng| := max_sub_min_eq_abs _ _
  have ey : max swLat neLat - min swLat neLat = |neLat - swLat| := max_sub_min_eq_abs _ _
  constructor
  · rintro ⟨hlat, hlng⟩
    have px : 0 < |neLng - swLng| := abs_pos.mpr (sub_ne_zero.mpr (Ne.symm hlng))
    have py : 0 < |neLat - swLat| := abs_pos.mpr (sub_ne_zero.mpr (Ne.symm hlat))
    have qx : ¬ (max swLng neLng - min swLng neLng) * 1.2 ≤ 0 := by
      rw [ex]; intro h; nlinarith
    have qy : ¬ (max swLat neLat - min swLat neLat) * 1.2 ≤ 0 := by
      rw [ey]; intro h; nlinarith
    rw [if_neg qx, if_neg qy]
    refine ⟨_, rfl, rfl, ?_, ?_⟩
    · simpa using lt_of_not_le qx
    · simpa using lt_of_not_le qy
  · intro h
    by_cases hlng : swLng = neLng
    · have zx : (max swLng neLng - min swLng neLng) * 1.2 = 0 := by
        rw [ex, hlng]; simp
      rw [zx]; simp
    · have hlat : swLat = neLat := h.resolve_right hlng
      have px : 0 < |neLng - swLng| := abs_pos.mpr (sub_ne_zero.mpr (Ne.symm hlng))
      have qx : ¬ (max swLng neLng - min swLng neLng) * 1.2 ≤ 0 := by
        rw [ex]; intro h; nlinarith
      have zy : (max swLat neLat - min swLat neLat) * 1.2 = 0 := by
        rw [ey, hlat]; simp
      rw [if_neg qx, zy]; simp

/-- C10 (as the code does it), at the viewport `"40.70,-74.01|40.75,-73.95"`. -/
theorem newRect_needs_positive_span_witness :
    ∃ r, newRect parseDecimal (viewport "40.70" "-74.01" "40.75" "-73.95") = .ok r ∧
      r.extents = [(max (-74.01) (-73.95) - min (-74.01) (-73.95)) * 1.2,
        (max 40.70 40.75 - min 40.70 40.75) * 1.2] ∧
      0 < r.extents.getD 0 0 ∧ 0 < r.extents.getD 1 0 :=
  (newRect_needs_positive_span parseDecimal "40.70" "-74.01" "40.75" "-73.95"
    40.70 (-74.01) 40.75 (-73.95) (by decide) (by decide) (by decide) (by decide)
    (by decide!) (by decide!) (by decide!) (by decide!)).1 ⟨by decide!, by decide!⟩

/-- C10 fails as stated: the corners of `"40.7,-74.0|40.7,-73.9"` share their
latitude, all four components parse, and `newRect` returns an error. -/
theorem newRect_zero_span_error :
    parseDecimal "40.7" = some 40.7 ∧ parseDecimal "-74.0" = some (-74.0) ∧
    parseDecimal "-73.9" = some (-73.9) ∧
    viewport "40.7" "-74.0" "40.7" "-73.9" = "40.7,-74.0|40.7,-73.9" ∧
    newRect parseDecimal "40.7,-74.0|40.7,-73.9" = .err (.distError 0) :=
  ⟨by decide!, by decide!, by decide!, by decide, by decide!⟩

/-- C3 fails on the code: a viewport with too few fields makes `newRect` index
out of range (a panic, not a returned error), and extra fields are silently
ignored. -/
theorem newRect_wrong_field_count :
    newRect parseDecimal "40.7,-74.0" = .panic ∧
    newRect parseDecimal "40.7" = .panic ∧
    newRect parseDecimal "40.7,-74.0|40.8" = .panic ∧
    newRect parseDecimal "1,2,3|4,5|6,7" =
      .ok { origin := [1.7, 0.7], extents := [3.6, 3.6] } ∧
    newRect parseDecimal "1,2,3|4,5|6,7" = newRect parseDecimal "1,2|4,5" :=
  ⟨by decide!, by decide!, by decide!, by decide!, by decide!⟩

/-! ## The clustering policy -/

theorem wrapInt64_of_isInt64 (n : Int) (h : isInt64 n) : wrapInt64 n = n := by
  unfold isInt64 at h
  unfold wrapInt64
  norm_num at h ⊢
  omega

/-- C1: `getClusteringRadiusAndMinClusterSize` is the policy table: `(0.01, 2)`
from zoom 14 on, and below it the radius
`cos(40.7128°) * 2π * 6378.137 / 2^(8+zoom) * 28`, which is the ground
resolution at NYC's latitude times the 28-pixel marker width, with minimum
size 3; the cosine is taken of the angle in degrees. -/
theorem getClusteringRadiusAndMinClusterSize_table (m : MathPkg) (zoom : Int)
    (hz : isInt64 zoom) :
    getClusteringRadiusAndMinClusterSize m zoom =
      (if zoom ≥ 14 then ((0.01 : ℚ), (2 : Int))
        else (m.Cos (40.7128 * m.Pi / 180) * 2 * m.Pi * 6378.137 / (2 : ℚ) ^ (8 + zoom) * 28,
          (3 : Int))) ∧
    (zoom < 14 →
      getClusteringRadiusAndMinClusterSize m zoom =
        (groundResolutionByLatAndZoom m 40.7128 zoom * 28, 3)) ∧
    cos m 40.7128 = m.Cos (40.7128 * m.Pi / 180) := by
  refine ⟨?_, ?_, rfl⟩
  · by_cases h : zoom ≥ 14
    · simp [getClusteringRadiusAndMinClusterSize, minZoomLevelToShowUngroupedStations, h]
    · have hw : wrapInt64 (8 + zoom) = 8 + zoom := by
        apply wrapInt64_of_isInt64
        unfold isInt64 at hz ⊢
        norm_num at hz ⊢
        omega
      simp only [getClusteringRadiusAndMinClusterSize, minZoomLevelToShowUngroupedStations, h,
        if_false, groundResolutionByLatAndZoom, cos, nycLatitude, EarthRadius,
        stationMarkerWidth, hw]
  · intro h
    have h14 : ¬ zoom ≥ 14 := by omega
    simp only [getClusteringRadiusAndMinClusterSize, minZoomLevelToShowUngroupedStations, h14,
      if_false, nycLatitude, stationMarkerWidth]

/-- C1, at zoom 10 and zoom 14. -/
theorem getClusteringRadiusAndMinClusterSize_table_witness :
    (getClusteringRadiusAndMinClusterSize approxMath 10 =
      (if (10 : Int) ≥ 14 then ((0.01 : ℚ), (2 : Int))
        else (approxMath.Cos (40.7128 * approxMath.Pi / 180) * 2 * approxMath.Pi * 6378.137 /
          (2 : ℚ) ^ (8 + 10 : Int) * 28, (3 : Int)))) ∧
    getClusteringRadiusAndMinClusterSize approxMath 14 = (0.01, 2) ∧
    (getClusteringRadiusAndMinClusterSize approxMath 10).2 = 3 :=
  ⟨(getClusteringRadiusAndMinClusterSize_table approxMath 10 (by decide)).1,
    by decide!, by decide!⟩

/-! ## The noise loop -/

theorem PropertyString_stationRecord (f : Feature) (name notes key : String)
    (hk : key ∉ displayKeys) :
    (stationRecord f name notes).PropertyString key = f.PropertyString key := by
  simp only [displayKeys, List.mem_cons, List.mem_singleton, List.not_mem_nil, or_false,
    not_or] at hk
  simp [Feature.PropertyString, stationRecord, Feature.SetProperty, hk.1, hk.2.1, hk.2.2]

theorem metadata_stationRecord (f : Feature) (name notes : String) :
    metadata (stationRecord f name notes) = metadata f := by
  unfold metadata
  rw [PropertyString_stationRecord f name notes "name" (by decide),
    PropertyString_stationRecord f name notes "notes" (by decide)]

theorem stationRecord_idem (f : Feature) (name notes : String) :
    stationRecord (stationRecord f name notes) name notes = stationRecord f name notes := by
  simp only [stationRecord, Feature.SetProperty]
  congr 1
  funext k
  by_cases h1 : k = "type" <;> by_cases h2 : k = "description" <;> by_cases h3 : k = "title" <;>
    simp [h1, h2, h3]

theorem metadata_eq_some (f : Feature) (name notes : String) :
    metadata f = some (name, notes) ↔
      f.PropertyString "name" = .ok name ∧ f.PropertyString "notes" = .ok notes := by
  unfold metadata
  cases h1 : f.PropertyString "name" <;> cases h2 : f.PropertyString "notes" <;> simp

theorem decorated_decorated (s : Station) : decorated (decorated s) = decorated s := by
  unfold decorated
  cases h : metadata s.feature with
  | none => simp [h]
  | some p =>
    obtain ⟨name, notes⟩ := p
    simp [metadata_stationRecord, h, stationRecord_idem]

theorem metadata_decorated (s : Station) :
    metadata (decorated s).feature = metadata s.feature := by
  unfold decorated
  cases h : metadata s.feature with
  | none => simp [h]
  | some p =>
    obtain ⟨name, notes⟩ := p
    simp [metadata_stationRecord, h]

/-- One step of the noise loop on an index that is out of range. -/
theorem noiseLoop_cons_oob (id : Nat) (rest : List Nat) (st : List Station)
    (fc : List FeatureRef) (hs : st[id]? = none) :
    noiseLoop (id :: rest) st fc = (st, .panic) := by
  simp only [noiseLoop, hs]

/-- One step of the noise loop on a station that has its metadata. -/
theorem noiseLoop_cons_some (id : Nat) (rest : List Nat) (st : List Station)
    (fc : List FeatureRef) (s : Station) (name notes : String)
    (hs : st[id]? = some s) (hm : metadata s.feature = some (name, notes)) :
    noiseLoop (id :: rest) st fc =
      noiseLoop rest (st.set id (decorated s)) (fc ++ [.station id]) := by
  have h := (metadata_eq_some _ _ _).1 hm
  simp only [noiseLoop, hs, h.1, h.2, decorated, hm]

/-- One step of the noise loop on a station that lacks `name` or `notes`. -/
theorem noiseLoop_cons_none (id : Nat) (rest : List Nat) (st : List Station)
    (fc : List FeatureRef) (s : Station)
    (hs : st[id]? = some s) (hm : metadata s.feature = none) :
    ∃ key, noiseLoop (id :: rest) st fc = (st, .err (.typeAssertion key)) := by
  unfold metadata at hm
  simp only [noiseLoop, hs]
  cases h1 : s.feature.PropertyString "name" with
  | error e =>
    refine ⟨"name", ?_⟩
    have : e = .typeAssertion "name" := by
      unfold Feature.PropertyString at h1
      split at h1 <;> simp_all
    simp [this]
  | ok name =>
    cases h2 : s.feature.PropertyString "notes" with
    | error e =>
      refine ⟨"notes", ?_⟩
      have : e = .typeAssertion "notes" := by
        unfold Feature.PropertyString at h2
        split at h2 <;> simp_all
      simp [this]
    | ok notes => simp [h1, h2] at hm

theorem LoopInv_refl (orig : List Station) : LoopInv orig orig :=
  ⟨rfl, fun _ s h => ⟨s, h, Or.inl rfl⟩⟩

theorem LoopInv_set (orig st : List Station) (id : Nat) (s : Station)
    (inv : LoopInv orig st) (hs : st[id]? = some s) :
    LoopInv orig (st.set id (decorated s)) ∧
      ∃ o, orig[id]? = some o ∧ decorated s = decorated o ∧
        metadata s.feature = metadata o.feature := by
  obtain ⟨o, ho, hso⟩ := inv.2 id s hs
  have hd : decorated s = decorated o := by
    rcases hso with h | h
    · rw [h]
    · rw [h, decorated_decorated]
  have hm : metadata s.feature = metadata o.feature := by
    rcases hso with h | h
    · rw [h]
    · rw [h, metadata_decorated]
  refine ⟨⟨by simp [inv.1], ?_⟩, o, ho, hd, hm⟩
  intro j t ht
  by_cases hj : id = j
  · subst hj
    have hlt : id < st.length := by
      rcases List.getElem?_eq_some_iff.1 hs with ⟨h, _⟩
      exact h
    rw [List.getElem?_set_self hlt] at ht
    exact ⟨o, ho, Or.inr (by rw [← hd]; exact (Option.some.inj ht).symm)⟩
  · rw [List.getElem?_set_ne hj] at ht
    exact inv.2 j t ht

/-- The stations are within `LoopInv` whatever the loop's outcome, and a
station whose index is not in `noise` is not touched. -/
theorem noiseLoop_inv (orig : List Station) (noise : List Nat) :
    ∀ (st : List Station) (fc : List FeatureRef), LoopInv orig st →
      LoopInv orig (noiseLoop noise st fc).1 ∧
        ∀ j, j ∉ noise → (noiseLoop noise st fc).1[j]? = st[j]? := by
  induction noise with
  | nil => intro st fc inv; exact ⟨inv, fun _ _ => rfl⟩
  | cons id rest ih =>
    intro st fc inv
    cases hs : st[id]? with
    | none =>
      rw [noiseLoop_cons_oob id rest st fc hs]; exact ⟨inv, fun _ _ => rfl⟩
    | some s =>
      cases hm : metadata s.feature with
      | none =>
        obtain ⟨key, hk⟩ := noiseLoop_cons_none id rest st fc s hs hm
        rw [hk]; exact ⟨inv, fun _ _ => rfl⟩
      | some p =>
        obtain ⟨name, notes⟩ := p
        rw [noiseLoop_cons_some id rest st fc s name notes hs hm]
        have h := ih (st.set id (decorated s)) (fc ++ [.station id])
          (LoopInv_set orig st id s inv hs).1
        refine ⟨h.1, fun j hj => ?_⟩
        have hj1 : id ≠ j := fun e => hj (by simp [e])
        have hj2 : j ∉ rest := fun e => hj (by simp [e])
        rw [h.2 j hj2, List.getElem?_set_ne hj1]

/-- When every noise index is in range and its station has its metadata, the
loop succeeds, collects the noise stations in order, and leaves each of them
decorated. -/
theorem noiseLoop_ok (orig : List Station) (noise : List Nat) :
    ∀ (st : List Station) (fc : List FeatureRef) (D : List Nat), LoopInv orig st →
      (∀ x ∈ D, st[x]? = (orig[x]?).map decorated) →
      (∀ id ∈ noise, ∃ o, orig[id]? = some o ∧ metadata o.feature ≠ none) →
      (noiseLoop noise st fc).2 = .ok (fc ++ noise.map FeatureRef.station) ∧
        ∀ x, x ∈ D ∨ x ∈ noise →
          (noiseLoop noise st fc).1[x]? = (orig[x]?).map decorated := by
  induction noise with
  | nil =>
    intro st fc D _ hD _
    refine ⟨by simp [noiseLoop], fun x hx => ?_⟩
    rcases hx with hx | hx
    · exact hD x hx
    · simp at hx
  | cons id rest ih =>
    intro st fc D inv hD hgood
    obtain ⟨o, ho, hmo⟩ := hgood id (by simp)
    have hlt : id < st.length := by
      rw [inv.1]
      rcases List.getElem?_eq_some_iff.1 ho with ⟨h, _⟩
      exact h
    obtain ⟨s, hs⟩ : ∃ s, st[id]? = some s := ⟨st[id], List.getElem?_eq_getElem hlt⟩
    obtain ⟨inv1, o1, ho1, hd, hm⟩ := LoopInv_set orig st id s inv hs
    have e : o1 = o := Option.some.inj (ho1.symm.trans ho)
    subst e
    obtain ⟨p, hp⟩ := Option.ne_none_iff_exists'.1 hmo
    obtain ⟨name, notes⟩ := p
    rw [noiseLoop_cons_some id rest st fc s name notes hs (hm.trans hp)]
    have hD1 : ∀ x ∈ id :: D, (st.set id (decorated s))[x]? = (orig[x]?).map decorated := by
      intro x hx
      by_cases hxi : id = x
      · subst hxi
        rw [List.getElem?_set_self hlt, ho, hd]; rfl
      · rw [List.getElem?_set_ne hxi]
        rcases List.mem_cons.1 hx with h | h
        · exact absurd h.symm hxi
        · exact hD x h
    have h := ih (st.set id (decorated s)) (fc ++ [.station id]) (id :: D) inv1 hD1
      (fun i hi => hgood i (by simp [hi]))
    refine ⟨by rw [h.1]; simp, fun x hx => h.2 x ?_⟩
    rcases hx with hx | hx
    · exact Or.inl (by simp [hx])
    · rcases List.mem_cons.1 hx with hx | hx
      · exact Or.inl (by simp [hx])
      · exact Or.inr hx

/-- When the noise indices are in range and some noise station lacks `name` or
`notes`, the loop returns an error. -/
theorem noiseLoop_err (orig : List Station) (noise : List Nat) :
    ∀ (st : List Station) (fc : List FeatureRef), LoopInv orig st →
      (∀ id ∈ noise, id < orig.length) →
      (∃ id ∈ noise, ∃ o, orig[id]? = some o ∧ metadata o.feature = none) →
      ∃ key, (noiseLoop noise st fc).2 = .err (.typeAssertion key) := by
  induction noise with
  | nil => intro st fc _ _ h; obtain ⟨id, hid, _⟩ := h; simp at hid
  | cons id rest ih =>
    intro st fc inv hrange hbad
    have hlt : id < st.length := by rw [inv.1]; exact hrange id (by simp)
    obtain ⟨s, hs⟩ : ∃ s, st[id]? = some s := ⟨st[id], List.getElem?_eq_getElem hlt⟩
    obtain ⟨inv1, o1, ho1, hd, hm⟩ := LoopInv_set orig st id s inv hs
    cases hms : metadata s.feature with
    | none =>
      obtain ⟨key, hk⟩ := noiseLoop_cons_none id rest st fc s hs hms
      exact ⟨key, by rw [hk]⟩
    | some p =>
      obtain ⟨name, notes⟩ := p
      rw [noiseLoop_cons_some id rest st fc s name notes hs hms]
      apply ih _ _ inv1 (fun i hi => hrange i (by simp [hi]))
      obtain ⟨b, hb, o, ho, hmo⟩ := hbad
      rcases List.mem_cons.1 hb with h | h
      · subst h
        have e : o1 = o := Option.some.inj (ho1.symm.trans ho)
        subst e
        rw [hm] at hms
        rw [hms] at hmo
        exact absurd hmo (by simp)
      · exact ⟨b, h, o, ho, hmo⟩

/-- A loop that succeeded found every noise index in range and every noise
station with its metadata. -/
theorem noiseLoop_ok_good (orig : List Station) (noise : List Nat) :
    ∀ (st : List Station) (fc fc1 : List FeatureRef), LoopInv orig st →
      (noiseLoop noise st fc).2 = .ok fc1 →
      ∀ id ∈ noise, ∃ o, orig[id]? = some o ∧ metadata o.feature ≠ none := by
  induction noise with
  | nil => intro _ _ _ _ _ id hid; simp at hid
  | cons id rest ih =>
    intro st fc fc1 inv hok
    cases hs : st[id]? with
    | none => rw [noiseLoop_cons_oob id rest st fc hs] at hok; simp at hok
    | some s =>
      obtain ⟨inv1, o1, ho1, hd, hm⟩ := LoopInv_set orig st id s inv hs
      cases hms : metadata s.feature with
      | none =>
        obtain ⟨key, hk⟩ := noiseLoop_cons_none id rest st fc s hs hms
        rw [hk] at hok; simp at hok
      | some p =>
        obtain ⟨name, notes⟩ := p
        rw [noiseLoop_cons_some id rest st fc s name notes hs hms] at hok
        intro i hi
        rcases List.mem_cons.1 hi with h | h
        · subst h
          exact ⟨o1, ho1, by rw [← hm, hms]; simp⟩
        · exact ih _ _ _ inv1 hok i h

/-- The function `clusterStations` in terms of the package's output and the noise loop. -/
theorem clusterStations_eq (m : MathPkg) (k : ClusterPkg) (spatials : List Station)
    (zoom : Int) :
    clusterStations m k spatials zoom =
      match noiseLoop (engineOutput m k spatials zoom).2 spatials [] with
      | (st, .err e) => (st, .err e)
      | (st, .panic) => (st, .panic)
      | (st, .ok fc) =>
        (st, .ok ((fc ++ (engineOutput m k spatials zoom).1.map (fun clstr =>
          FeatureRef.fresh (clusterRecord k (spatials.map Station.Point) clstr))).filterMap
            (resolve st))) := by
  rfl

/-! ## `clusterStations` -/

theorem Outcome.isOk_iff {α : Type} (o : Outcome α) : o.isOk = true ↔ ∃ v, o = .ok v := by
  cases o <;> simp [Outcome.isOk]

theorem metadata_eq_none_iff (f : Feature) :
    metadata f = none ↔ ¬ hasStringProperty f "name" ∨ ¬ hasStringProperty f "notes" := by
  unfold metadata hasStringProperty Feature.PropertyString
  constructor
  · intro h
    by_contra hc
    rw [not_or, not_not, not_not] at hc
    obtain ⟨⟨n, hn⟩, ⟨t, ht⟩⟩ := hc
    simp [hn, ht] at h
  · intro h
    rcases h with h | h
    · split <;> rename_i h1 h2
      · split at h1
        · rename_i s hs; exact absurd ⟨s, hs⟩ h
        · simp at h1
      · rfl
    · split <;> rename_i h1 h2
      · split at h2
        · rename_i s hs; exact absurd ⟨s, hs⟩ h
        · simp at h2
      · rfl

theorem isStationRecord_decorated (spatials : List Station) (id : Nat) (o : Station)
    (ho : spatials[id]? = some o) (hm : metadata o.feature ≠ none) :
    isStationRecord spatials id (decorated o).feature := by
  obtain ⟨p, hp⟩ := Option.ne_none_iff_exists'.1 hm
  obtain ⟨name, notes⟩ := p
  have h := (metadata_eq_some _ _ _).1 hp
  have hn : o.feature.Properties "name" = some (.string name) := by
    have := h.1
    unfold Feature.PropertyString at this
    split at this <;> simp_all
  have ht : o.feature.Properties "notes" = some (.string notes) := by
    have := h.2
    unfold Feature.PropertyString at this
    split at this <;> simp_all
  refine ⟨o, name, notes, ho, hn, ht, ?_, ?_, ?_, ?_⟩ <;>
    simp [decorated, hp, stationRecord, Feature.SetProperty]

/-- A successful run: every noise station has its metadata, the stations
afterwards are decorated at the noise indices, and the collection is the
decorated noise stations followed by the cluster records. -/
theorem clusterStations_ok (m : MathPkg) (k : ClusterPkg) (spatials : List Station)
    (zoom : Int) (fc : List Feature)
    (h : (clusterStations m k spatials zoom).2 = .ok fc) :
    (∀ id ∈ (engineOutput m k spatials zoom).2,
      ∃ o, spatials[id]? = some o ∧ metadata o.feature ≠ none) ∧
    fc = (engineOutput m k spatials zoom).2.filterMap
        (fun id => (spatials[id]?).map (fun s => (decorated s).feature)) ++
      (engineOutput m k spatials zoom).1.map
        (clusterRecord k (spatials.map Station.Point)) := by
  rw [clusterStations_eq] at h
  have inv := LoopInv_refl spatials
  cases hr : noiseLoop (engineOutput m k spatials zoom).2 spatials [] with
  | mk st out =>
    rw [hr] at h
    cases out with
    | err e => simp at h
    | panic => simp at h
    | ok fc0 =>
      have hout : (noiseLoop (engineOutput m k spatials zoom).2 spatials []).2 = .ok fc0 := by
        rw [hr]
      have good := noiseLoop_ok_good spatials _ spatials [] fc0 inv hout
      have hok := noiseLoop_ok spatials (engineOutput m k spatials zoom).2 spatials [] [] inv
        (by simp) good
      rw [hr] at hok
      have e0 : fc0 = (engineOutput m k spatials zoom).2.map FeatureRef.station := by
        have := hok.1
        simp only [List.nil_append, Outcome.ok.injEq] at this
        exact this
      refine ⟨good, ?_⟩
      simp only [Outcome.ok.injEq] at h
      rw [← h, e0, List.filterMap_append, List.filterMap_map, List.filterMap_map]
      congr 1
      · apply List.filterMap_congr
        intro id hid
        simp only [Function.comp, resolve]
        rw [hok.2 id (Or.inr hid)]
        cases spatials[id]? <;> rfl
      · have : (resolve st ∘ fun clstr =>
            FeatureRef.fresh (clusterRecord k (spatials.map Station.Point) clstr)) =
            fun clstr => some (clusterRecord k (spatials.map Station.Point) clstr) := by
          funext c; rfl
        rw [this]
        exact congrFun (List.filterMap_eq_map _) _

theorem forall₂_stationRecords (spatials : List Station) (noise : List Nat)
    (good : ∀ id ∈ noise, ∃ o, spatials[id]? = some o ∧ metadata o.feature ≠ none) :
    List.Forall₂ (isStationRecord spatials) noise
      (noise.filterMap (fun id => (spatials[id]?).map (fun s => (decorated s).feature))) := by
  induction noise with
  | nil => exact List.Forall₂.nil
  | cons id rest ih =>
    obtain ⟨o, ho, hm⟩ := good id (by simp)
    have e : List.filterMap (fun id => (spatials[id]?).map (fun s => (decorated s).feature))
        (id :: rest) = (decorated o).feature ::
          List.filterMap (fun id => (spatials[id]?).map (fun s => (decorated s).feature))
            rest := by
      simp [List.filterMap_cons, ho]
    rw [e]
    exact List.Forall₂.cons (isStationRecord_decorated spatials id o ho hm)
      (ih (fun i hi => good i (by simp [hi])))

theorem clusterRecord_properties (k : ClusterPkg) (pl : PointList) (clstr : Cluster) :
    (clusterRecord k pl clstr).Properties "title" =
        some (.string ("Station Cluster #" ++ toString (wrapInt64 (clstr.C + 1)))) ∧
      (clusterRecord k pl clstr).Properties "description" =
        some (.string ("Contains " ++ toString clstr.Points.length ++ " stations")) ∧
      (clusterRecord k pl clstr).Properties "type" = some (.string "cluster") ∧
      (clusterRecord k pl clstr).Point = k.CentroidAndBounds clstr pl := by
  simp [clusterRecord, Feature.SetProperty, NewPointFeature]

/-- The shape of the collection of a successful run: the station records of
the noise indices, in order, then the cluster records. -/
theorem clusterStations_shape (m : MathPkg) (k : ClusterPkg) (spatials : List Station)
    (zoom : Int) (fc : List Feature)
    (h : (clusterStations m k spatials zoom).2 = .ok fc) :
    ∃ stationRecords,
      fc = stationRecords ++ (engineOutput m k spatials zoom).1.map
        (clusterRecord k (spatials.map Station.Point)) ∧
      List.Forall₂ (isStationRecord spatials) (engineOutput m k spatials zoom).2
        stationRecords := by
  obtain ⟨good, hfc⟩ := clusterStations_ok m k spatials zoom fc h
  exact ⟨_, hfc, forall₂_stationRecords spatials _ good⟩

/-- C6: the collection returned by a successful run is one station record per
noise index, in the order of the noise list, each with the station's
coordinate, title `"<name> Station"`, the notes as description and type
`"station"`, followed by one cluster record per cluster in the package's output
order; its length is `len(noise) + len(clusters)`. -/
theorem clusterStations_collection (m : MathPkg) (k : ClusterPkg) (spatials : List Station)
    (zoom : Int) (fc : List Feature)
    (h : (clusterStations m k spatials zoom).2 = .ok fc) :
    ∃ stationRecords,
      fc = stationRecords ++ (engineOutput m k spatials zoom).1.map
        (clusterRecord k (spatials.map Station.Point)) ∧
      List.Forall₂ (isStationRecord spatials) (engineOutput m k spatials zoom).2
        stationRecords ∧
      fc.length = (engineOutput m k spatials zoom).2.length +
        (engineOutput m k spatials zoom).1.length := by
  obtain ⟨recs, hfc, hf⟩ := clusterStations_shape m k spatials zoom fc h
  refine ⟨recs, hfc, hf, ?_⟩
  rw [hfc, List.length_append, List.length_map, ← hf.length_eq]

/-- C6, on four stations at zoom 15: one noise station, one cluster of three. -/
theorem clusterStations_collection_witness :
    engineOutput approxMath (specEngine labelByPosition) demoStations 15 =
      ([{ C := 0, Points := [1, 2, 3] }], [0]) ∧
    propertyColumn "title"
        (clusterStations approxMath (specEngine labelByPosition) demoStations 15).2 =
      [some (.string "A Station"), some (.string "Station Cluster #1")] ∧
    ∃ fc, (clusterStations approxMath (specEngine labelByPosition) demoStations 15).2 = .ok fc ∧
      fc.length =
        (engineOutput approxMath (specEngine labelByPosition) demoStations 15).2.length +
          (engineOutput approxMath (specEngine labelByPosition) demoStations 15).1.length := by
  refine ⟨by decide!, by decide!, ?_⟩
  obtain ⟨fc, h⟩ := (Outcome.isOk_iff _).1
    (by decide! :
      (clusterStations approxMath (specEngine labelByPosition) demoStations 15).2.isOk = true)
  obtain ⟨_, _, _, hl⟩ := clusterStations_collection approxMath (specEngine labelByPosition)
    demoStations 15 fc h
  exact ⟨fc, h, hl⟩

/-- C7: when the noise indices are indices of `spatials`, `clusterStations`
returns an error exactly when some noise station lacks a string `name` or a
string `notes`; an error comes with no collection, and when every noise station
has both the call returns a collection.  Cluster members are not looked at. -/
theorem clusterStations_error_iff (m : MathPkg) (k : ClusterPkg) (spatials : List Station)
    (zoom : Int)
    (hrange : ∀ id ∈ (engineOutput m k spatials zoom).2, id < spatials.length) :
    ((∃ e, (clusterStations m k spatials zoom).2 = .err e) ↔
      ∃ id ∈ (engineOutput m k spatials zoom).2, ∃ s, spatials[id]? = some s ∧
        (¬ hasStringProperty s.feature "name" ∨ ¬ hasStringProperty s.feature "notes")) ∧
    ((∃ e, (clusterStations m k spatials zoom).2 = .err e) →
      ∀ fc, (clusterStations m k spatials zoom).2 ≠ .ok fc) ∧
    ((∀ id ∈ (engineOutput m k spatials zoom).2, ∀ s, spatials[id]? = some s →
        hasStringProperty s.feature "name" ∧ hasStringProperty s.feature "notes") →
      ∃ fc, (clusterStations m k spatials zoom).2 = .ok fc) := by
  have inv := LoopInv_refl spatials
  have hmatch : ∀ o, (noiseLoop (engineOutput m k spatials zoom).2 spatials []).2 = o →
      ((∃ e, o = .err e) → ∃ e, (clusterStations m k spatials zoom).2 = .err e) ∧
      ((∃ fc, o = .ok fc) → ∃ fc, (clusterStations m k spatials zoom).2 = .ok fc) := by
    intro o ho
    rw [clusterStations_eq]
    cases hr : noiseLoop (engineOutput m k spatials zoom).2 spatials [] with
    | mk st out =>
      rw [hr] at ho
      simp only at ho
      subst ho
      cases out <;> simp
  have hbad : (∃ id ∈ (engineOutput m k spatials zoom).2, ∃ s, spatials[id]? = some s ∧
      (¬ hasStringProperty s.feature "name" ∨ ¬ hasStringProperty s.feature "notes")) →
      ∃ e, (clusterStations m k spatials zoom).2 = .err e := by
    rintro ⟨id, hid, s, hs, hm⟩
    obtain ⟨key, hk⟩ := noiseLoop_err spatials _ spatials [] inv hrange
      ⟨id, hid, s, hs, (metadata_eq_none_iff _).2 hm⟩
    exact (hmatch _ hk).1 ⟨_, rfl⟩
  have hgood : (¬ ∃ id ∈ (engineOutput m k spatials zoom).2, ∃ s, spatials[id]? = some s ∧
      (¬ hasStringProperty s.feature "name" ∨ ¬ hasStringProperty s.feature "notes")) →
      ∃ fc, (clusterStations m k spatials zoom).2 = .ok fc := by
    intro hn
    have good : ∀ id ∈ (engineOutput m k spatials zoom).2,
        ∃ o, spatials[id]? = some o ∧ metadata o.feature ≠ none := by
      intro id hid
      have hlt := hrange id hid
      refine ⟨spatials[id], List.getElem?_eq_getElem hlt, fun hm => hn ?_⟩
      exact ⟨id, hid, spatials[id], List.getElem?_eq_getElem hlt,
        (metadata_eq_none_iff _).1 hm⟩
    have hok := noiseLoop_ok spatials (engineOutput m k spatials zoom).2 spatials [] [] inv
      (by simp) good
    exact (hmatch _ hok.1).2 ⟨_, rfl⟩
  have hexcl : (∃ e, (clusterStations m k spatials zoom).2 = .err e) →
      ∀ fc, (clusterStations m k spatials zoom).2 ≠ .ok fc := by
    rintro ⟨e, he⟩ fc hfc
    rw [he] at hfc
    exact Outcome.noConfusion hfc
  refine ⟨⟨fun he => ?_, hbad⟩, hexcl, fun hall => hgood ?_⟩
  · by_contra hn
    obtain ⟨fc, hfc⟩ := hgood hn
    exact hexcl he fc hfc
  · rintro ⟨id, hid, s, hs, hm⟩
    have := hall id hid s hs
    rcases hm with hm | hm
    · exact hm this.1
    · exact hm this.2

/-- C7, on two noise stations of which the second has no `notes`: an error. -/
theorem clusterStations_error_iff_witness :
    engineOutput approxMath (specEngine labelByPosition) demoStationsNoNotes 15 = ([], [0, 1]) ∧
    ∃ e, (clusterStations approxMath (specEngine labelByPosition) demoStationsNoNotes 15).2 =
      .err e := by
  refine ⟨by decide!, ?_⟩
  refine (clusterStations_error_iff approxMath (specEngine labelByPosition) demoStationsNoNotes
    15 (by decide!)).1.2 ⟨1, by decide!, _, rfl, Or.inr ?_⟩
  rintro ⟨s, hs⟩
  simp [demoStationsNoNotes] at hs

/-- The record of the cluster at position `i` (0-based) of the package's
output: it follows the station records, and its title carries the cluster's
label plus one, a Go `int` sum. -/
theorem clusterStations_cluster_at (m : MathPkg) (k : ClusterPkg)
    (spatials : List Station) (zoom : Int) (fc : List Feature) (i : Nat) (clstr : Cluster)
    (h : (clusterStations m k spatials zoom).2 = .ok fc)
    (hi : (engineOutput m k spatials zoom).1[i]? = some clstr) :
    ∃ f, fc[(engineOutput m k spatials zoom).2.length + i]? = some f ∧
      f.Properties "title" =
        some (.string ("Station Cluster #" ++ toString (wrapInt64 (clstr.C + 1)))) ∧
      f.Properties "description" =
        some (.string ("Contains " ++ toString clstr.Points.length ++ " stations")) ∧
      f.Properties "type" = some (.string "cluster") := by
  obtain ⟨recs, hfc, hf⟩ := clusterStations_shape m k spatials zoom fc h
  have hp := clusterRecord_properties k (spatials.map Station.Point) clstr
  refine ⟨clusterRecord k (spatials.map Station.Point) clstr, ?_, hp.1, hp.2.1, hp.2.2.1⟩
  rw [hfc, hf.length_eq, List.getElem?_append_right (by omega)]
  simp [List.getElem?_map, hi]

/-- C5: in a successful run, the record emitted for the cluster at 1-based
position `i + 1` of the clusters the package returned has title
`"Station Cluster #"` followed by `i + 1`, description `"Contains n stations"`
with `n` the cluster's number of member points, and type `"cluster"`.  The code
takes the number from the cluster's label `C` plus one; the package numbers its
clusters 0, 1, 2, ... in output order, so the label of this cluster is `i`. -/
theorem clusterStations_cluster_record (m : MathPkg) (k : ClusterPkg)
    (spatials : List Station) (zoom : Int) (fc : List Feature) (i : Nat) (clstr : Cluster)
    (h : (clusterStations m k spatials zoom).2 = .ok fc)
    (hi : (engineOutput m k spatials zoom).1[i]? = some clstr)
    (hlabel : clstr.C = (i : Int))
    (hint : isInt64 ((i : Int) + 1)) :
    ∃ f, fc[(engineOutput m k spatials zoom).2.length + i]? = some f ∧
      f.Properties "title" = some (.string ("Station Cluster #" ++ toString (i + 1))) ∧
      f.Properties "description" =
        some (.string ("Contains " ++ toString clstr.Points.length ++ " stations")) ∧
      f.Properties "type" = some (.string "cluster") := by
  obtain ⟨f, hf, ht, hd, hty⟩ := clusterStations_cluster_at m k spatials zoom fc i clstr h hi
  refine ⟨f, hf, ?_, hd, hty⟩
  rw [ht, hlabel, wrapInt64_of_isInt64 _ hint]
  rfl

/-- C5, on two stations at one place and a third far away, at zoom 15: the
third is noise, the two make the first cluster, titled `#1`. -/
theorem clusterStations_cluster_record_witness :
    engineOutput approxMath (specEngine labelByPosition) colocatedStations 15 =
      ([{ C := 0, Points := [0, 1] }], [2]) ∧
    propertyColumn "title"
        (clusterStations approxMath (specEngine labelByPosition) colocatedStations 15).2 =
      [some (.string "Z Station"), some (.string "Station Cluster #1")] ∧
    ∃ fc f,
      (clusterStations approxMath (specEngine labelByPosition) colocatedStations 15).2 =
        .ok fc ∧
      fc[1]? = some f ∧
      f.Properties "title" = some (.string "Station Cluster #1") ∧
      f.Properties "description" = some (.string "Contains 2 stations") ∧
      f.Properties "type" = some (.string "cluster") := by
  have e : engineOutput approxMath (specEngine labelByPosition) colocatedStations 15 =
      ([{ C := 0, Points := [0, 1] }], [2]) := by decide!
  refine ⟨e, by decide!, ?_⟩
  obtain ⟨fc, h⟩ := (Outcome.isOk_iff _).1
    (by decide! :
      (clusterStations approxMath (specEngine labelByPosition) colocatedStations 15).2.isOk =
        true)
  obtain ⟨f, hf, ht, hd, hty⟩ := clusterStations_cluster_record approxMath
    (specEngine labelByPosition) colocatedStations 15 fc 0 { C := 0, Points := [0, 1] } h
    (by rw [e]; rfl) rfl (by decide)
  rw [e] at hf
  exact ⟨fc, f, h, hf, ht, hd, hty⟩

/-- C8 (as the code does it): whatever the outcome, after `clusterStations`
there are as many stations as before and each has its coordinate and every
property other than `title`, `description` and `type` as before; a station
whose index is not in the noise list is unchanged altogether, and a changed one
is the station with its three display properties set. -/
theorem clusterStations_frame (m : MathPkg) (k : ClusterPkg) (spatials : List Station)
    (zoom : Int) :
    (clusterStations m k spatials zoom).1.length = spatials.length ∧
    ∀ (j : Nat) (s t : Station), spatials[j]? = some s →
      (clusterStations m k spatials zoom).1[j]? = some t →
      t.feature.Point = s.feature.Point ∧
      (∀ key, key ∉ displayKeys → t.feature.Properties key = s.feature.Properties key) ∧
      (j ∉ (engineOutput m k spatials zoom).2 → t = s) ∧
      (t = s ∨ t = decorated s) := by
  have inv := noiseLoop_inv spatials (engineOutput m k spatials zoom).2 spatials []
    (LoopInv_refl spatials)
  have e : (clusterStations m k spatials zoom).1 =
      (noiseLoop (engineOutput m k spatials zoom).2 spatials []).1 := by
    rw [clusterStations_eq]
    cases hr : noiseLoop (engineOutput m k spatials zoom).2 spatials [] with
    | mk st out => cases out <;> rfl
  rw [e]
  refine ⟨inv.1.1, fun j s t hs ht => ?_⟩
  obtain ⟨o, ho, hto⟩ := inv.1.2 j t ht
  have eo : o = s := Option.some.inj (ho.symm.trans hs)
  subst eo
  have hframe : j ∉ (engineOutput m k spatials zoom).2 → t = o := by
    intro hj
    rw [inv.2 j hj, hs] at ht
    exact (Option.some.inj ht).symm
  rcases hto with h | h
  · subst h
    exact ⟨rfl, fun _ _ => rfl, fun _ => rfl, Or.inl rfl⟩
  · refine ⟨?_, ?_, hframe, Or.inr h⟩
    · rw [h]; unfold decorated
      cases metadata o.feature with
      | none => rfl
      | some p => rfl
    · intro key hk
      rw [h]; unfold decorated
      cases metadata o.feature with
      | none => rfl
      | some p =>
        simp only [displayKeys, List.mem_cons, List.mem_singleton, List.not_mem_nil, or_false,
          not_or] at hk
        simp [stationRecord, Feature.SetProperty, hk.1, hk.2.1, hk.2.2]

/-- C8 fails as stated: a query sets `title` on the feature of a station of the
input: station 0 has no `title` before the call and `"A Station"` after it. -/
theorem clusterStations_mutates_station :
    (demoStations[0]?).bind (fun s => s.feature.Properties "title") = none ∧
    ((clusterStations approxMath (specEngine labelByPosition) demoStations 15).1[0]?).bind
      (fun s => s.feature.Properties "title") = some (.string "A Station") ∧
    ((clusterStations approxMath (specEngine labelByPosition) demoStations 15).1[0]?).bind
      (fun s => s.feature.Properties "type") = some (.string "station") :=
  ⟨by decide!, by decide!, by decide!⟩

/-! ## The clustering engine of the specification partitions the points -/

/-- A flood fill only moves points from `todo` and `rest` into the group. -/
theorem flood_perm (adj : Nat → Nat → Bool) :
    ∀ (fuel : Nat) (todo rest : List Nat),
      List.Perm ((flood adj fuel todo rest).1 ++ (flood adj fuel todo rest).2)
        (todo ++ rest) := by
  intro fuel
  induction fuel with
  | zero => intro todo rest; exact List.Perm.refl _
  | succ fuel ih =>
    intro todo rest
    cases todo with
    | nil => exact List.Perm.refl _
    | cons x todo =>
      have h := ih (todo ++ rest.filter (fun j => adj x j)) (rest.filter (fun j => !adj x j))
      have hsplit : List.Perm
          (rest.filter (fun j => adj x j) ++ rest.filter (fun j => !adj x j)) rest :=
        List.filter_append_perm (fun j => adj x j) rest
      have e : flood adj (fuel + 1) (x :: todo) rest =
          (x :: (flood adj fuel (todo ++ rest.filter (fun j => adj x j))
              (rest.filter (fun j => !adj x j))).1,
            (flood adj fuel (todo ++ rest.filter (fun j => adj x j))
              (rest.filter (fun j => !adj x j))).2) := rfl
      rw [e]
      simp only [List.cons_append]
      apply List.Perm.cons
      refine h.trans ?_
      rw [List.append_assoc]
      exact List.Perm.append_left todo hsplit

/-- What a flood fill leaves over was in `rest`. -/
theorem flood_left_subset (adj : Nat → Nat → Bool) :
    ∀ (fuel : Nat) (todo rest : List Nat), ∀ j ∈ (flood adj fuel todo rest).2, j ∈ rest := by
  intro fuel
  induction fuel with
  | zero => intro todo rest j hj; exact hj
  | succ fuel ih =>
    intro todo rest j hj
    cases todo with
    | nil => exact hj
    | cons x todo =>
      have h := ih (todo ++ rest.filter (fun j => adj x j))
        (rest.filter (fun j => !adj x j)) j hj
      exact (List.mem_filter.1 h).1

/-- With enough fuel a group is maximal: no point left over is reachable from
one of its members. -/
theorem flood_closed (adj : Nat → Nat → Bool) :
    ∀ (fuel : Nat) (todo rest : List Nat), todo.length + rest.length ≤ fuel →
      ∀ x ∈ (flood adj fuel todo rest).1, ∀ j ∈ (flood adj fuel todo rest).2,
        adj x j = false := by
  intro fuel
  induction fuel with
  | zero =>
    intro todo rest hf x hx
    have : todo = [] := List.length_eq_zero.1 (by omega)
    subst this
    simp [flood] at hx
  | succ fuel ih =>
    intro todo rest hf x hx j hj
    cases todo with
    | nil => simp [flood] at hx
    | cons y todo =>
      have hlen : (rest.filter (fun j => adj y j)).length +
          (rest.filter (fun j => !adj y j)).length = rest.length := by
        rw [← List.length_append]
        exact (List.filter_append_perm (fun j => adj y j) rest).length_eq
      have hb : (todo ++ rest.filter (fun j => adj y j)).length +
          (rest.filter (fun j => !adj y j)).length ≤ fuel := by
        rw [List.length_append]
        simp only [List.length_cons] at hf
        omega
      have e : flood adj (fuel + 1) (y :: todo) rest =
          (y :: (flood adj fuel (todo ++ rest.filter (fun j => adj y j))
              (rest.filter (fun j => !adj y j))).1,
            (flood adj fuel (todo ++ rest.filter (fun j => adj y j))
              (rest.filter (fun j => !adj y j))).2) := rfl
      rw [e] at hx hj
      rcases List.mem_cons.1 hx with h | h
      · subst h
        have hfar := flood_left_subset adj fuel _ _ j hj
        simpa using (List.mem_filter.1 hfar).2
      · exact ih _ _ hb x h j hj

/-- The groups together are the points they were formed from. -/
theorem components_perm (adj : Nat → Nat → Bool) :
    ∀ (fuel : Nat) (unv : List Nat),
      List.Perm (components adj fuel unv).flatten unv := by
  intro fuel
  induction fuel with
  | zero =>
    intro unv
    cases unv with
    | nil => exact List.Perm.refl _
    | cons i rest => simp [components]
  | succ fuel ih =>
    intro unv
    cases unv with
    | nil => exact List.Perm.refl _
    | cons i rest =>
      have e : components adj (fuel + 1) (i :: rest) =
          (flood adj (rest.length + 1) [i] rest).1 ::
            components adj fuel (flood adj (rest.length + 1) [i] rest).2 := rfl
      rw [e, List.flatten_cons]
      refine (List.Perm.append_left _ (ih _)).trans ?_
      exact flood_perm adj (rest.length + 1) [i] rest

/-- The clusters' members and the noise of `specDBScan` are, together, every
index of a point exactly once. -/
theorem specDBScan_perm (label : Nat → List Nat → Int) (points : PointList)
    (radius : Float64) (minSize : Int) :
    List.Perm
      ((specDBScan label points radius minSize).2 ++
        ((specDBScan label points radius minSize).1.map Cluster.Points).flatten)
      (List.range points.length) := by
  have hg := components_perm (reachable points radius) points.length
    (List.range points.length)
  have e1 : (specDBScan label points radius minSize).1.map Cluster.Points =
      (components (reachable points radius) points.length (List.range points.length)).filter
        (fun g => decide (minSize ≤ (g.length : Int))) := by
    simp only [specDBScan, List.map_map]
    exact List.enum_map_snd _
  have e2 : (specDBScan label points radius minSize).2 =
      (List.range points.length).filter (fun i =>
        ((components (reachable points radius) points.length
          (List.range points.length)).filter
            (fun g => !decide (minSize ≤ (g.length : Int)))).any (fun g => g.contains i)) := rfl
  rw [e1, e2]
  generalize components (reachable points radius) points.length
    (List.range points.length) = groups at hg
  have hsplit : List.Perm
      ((groups.filter (fun g => decide (minSize ≤ (g.length : Int)))).flatten ++
        (groups.filter (fun g => !decide (minSize ≤ (g.length : Int)))).flatten)
      (List.range points.length) := by
    rw [← List.flatten_append]
    exact (List.filter_append_perm _ groups).flatten.trans hg
  have hnd := (hsplit.nodup_iff).2 (List.nodup_range points.length)
  have hnoise : List.Perm
      ((List.range points.length).filter (fun i =>
        (groups.filter (fun g => !decide (minSize ≤ (g.length : Int)))).any
          (fun g => g.contains i)))
      (groups.filter (fun g => !decide (minSize ≤ (g.length : Int)))).flatten := by
    refine (List.perm_ext_iff_of_nodup ((List.nodup_range _).filter _) hnd.of_append_right).2
      (fun a => ?_)
    constructor
    · intro ha
      rw [List.mem_filter, List.any_eq_true] at ha
      obtain ⟨_, g, hg1, hg2⟩ := ha
      exact List.mem_flatten.2 ⟨g, hg1, by simpa using hg2⟩
    · intro ha
      have hr : a ∈ List.range points.length :=
        hsplit.mem_iff.1 (List.mem_append_right _ ha)
      obtain ⟨g, hg1, hg2⟩ := List.mem_flatten.1 ha
      rw [List.mem_filter, List.any_eq_true]
      exact ⟨hr, g, hg1, by simpa using hg2⟩
  exact ((hnoise.append_right _).trans List.perm_append_comm).trans hsplit

theorem forall₂_exists_of_mem {α β : Type} {R : α → β → Prop} {l₁ : List α} {l₂ : List β}
    (h : List.Forall₂ R l₁ l₂) {a : α} (ha : a ∈ l₁) : ∃ b ∈ l₂, R a b := by
  induction h with
  | nil => simp at ha
  | cons hab _ ih =>
    rcases List.mem_cons.1 ha with e | e
    · subst e; exact ⟨_, List.mem_cons_self _ _, hab⟩
    · obtain ⟨b, hb1, hb2⟩ := ih e
      exact ⟨b, List.mem_cons_of_mem _ hb1, hb2⟩

/-- For every clustering package: a station that the package lists as noise
and also among the members of a cluster is emitted as a station record and is
counted in that cluster's record as well. -/
theorem clusterStations_noise_and_member (m : MathPkg) (k : ClusterPkg)
    (spatials : List Station) (zoom : Int) (fc : List Feature) (id i : Nat) (clstr : Cluster)
    (h : (clusterStations m k spatials zoom).2 = .ok fc)
    (hn : id ∈ (engineOutput m k spatials zoom).2)
    (hi : (engineOutput m k spatials zoom).1[i]? = some clstr)
    (_hm : id ∈ clstr.Points) :
    (∃ f ∈ fc, isStationRecord spatials id f) ∧
    ∃ g, fc[(engineOutput m k spatials zoom).2.length + i]? = some g ∧
      g.Properties "description" =
        some (.string ("Contains " ++ toString clstr.Points.length ++ " stations")) := by
  obtain ⟨recs, hfc, hf⟩ := clusterStations_shape m k spatials zoom fc h
  obtain ⟨g, hg, _, hd, _⟩ := clusterStations_cluster_at m k spatials zoom fc i clstr h hi
  refine ⟨?_, g, hg, hd⟩
  obtain ⟨f, hfm, hrec⟩ := forall₂_exists_of_mem hf hn
  exact ⟨f, by rw [hfc]; exact List.mem_append_left _ hfm, hrec⟩

/-- C4 fails on the code: for three stations in a row at zoom 13 the package
returns station 0 as noise and as a member of the cluster, and
`clusterStations` emits the station record `"A Station"` and the cluster
record `"Contains 3 stations"`: station 0 is accounted for twice, and the
records add up to 1 + 3 = 4 for 3 stations. -/
theorem clusterStations_border_station_twice :
    engineOutput approxMath borderPkg borderStations 13 =
      ([{ C := 0, Points := [1, 2, 0] }], [0]) ∧
    propertyColumn "title" (clusterStations approxMath borderPkg borderStations 13).2 =
      [some (.string "A Station"), some (.string "Station Cluster #1")] ∧
    propertyColumn "description" (clusterStations approxMath borderPkg borderStations 13).2 =
      [some (.string "a"), some (.string "Contains 3 stations")] ∧
    propertyColumn "type" (clusterStations approxMath borderPkg borderStations 13).2 =
      [some (.string "station"), some (.string "cluster")] ∧
    (engineOutput approxMath borderPkg borderStations 13).2.length +
        ((engineOutput approxMath borderPkg borderStations 13).1.map
          (fun c => c.Points.length)).sum = 4 ∧
    borderStations.length = 3 :=
  ⟨by decide!, by decide!, by decide!, by decide!, by decide!, by decide!⟩

/-- A cluster of `specDBScan` has at least `minSize` members. -/
theorem specDBScan_min_size (label : Nat → List Nat → Int) (points : PointList)
    (radius : Float64) (minSize : Int) :
    ∀ c ∈ (specDBScan label points radius minSize).1, minSize ≤ (c.Points.length : Int) := by
  intro c hc
  simp only [specDBScan, List.mem_map] at hc
  obtain ⟨p, hp, rfl⟩ := hc
  have h2 := List.mem_map_of_mem Prod.snd hp
  rw [List.enum_map_snd] at h2
  simpa using (List.mem_filter.1 h2).2

/-- The two clustering scenarios of the specification, run on `specDBScan`:
three stations 0.001 degrees apart make one cluster and no noise; two stations
far apart make no cluster and two noise stations. -/
theorem specDBScan_scenarios :
    specDBScan labelByPosition [(0, 0), (0, 0.001), (0, 0.002)] 0.01 2 =
      ([{ C := 0, Points := [0, 1, 2] }], []) ∧
    specCentroid { C := 0, Points := [0, 1, 2] } [(0, 0), (0, 0.001), (0, 0.002)] =
      (0, 0.001) ∧
    specDBScan labelByPosition [(0, 0), (10, 10)] 0.01 2 = ([], [0, 1]) :=
  ⟨by decide!, by decide!, by decide!⟩

end NycSubway
